import Mathlib

/-!
Verification development for the sensors-and-screen controller.

The definitions below are a shallow embedding of the relevant parts of
`src/util.py` and `src/menu.py`:

* `MenuListState` / `MenuList.key_press` embed the navigation state of
  `menu.MenuList` (fields `menu_elements` abstracted to their count,
  `start_row`, `selected`) together with the display operations a key press
  emits (`display.update_row`, `display.push_back`, `display.print_lines`).
* `FreqChoiceState` / `FreqencyChoice.key_press` embed the pending-selection
  state machine of `menu.FreqencyChoice` (source spelling kept).
* `CMState` / `ConfigManager.*` embed the class-level cache of
  `util.ConfigManager` with an explicit heap of `ConfigParser` objects so
  that aliasing (returning the cached object vs. a `deepcopy`) is visible.
* `ResettableTimerState` / `RepeatTimerState` / `Switch.change_state` embed
  the timer flags and the debounced-switch commit step of `util.py`.

Machine-level concerns (actual threads, the GPIO library, on-disk INI
syntax) are abstracted: file contents are modelled as already-parsed
tables, and thread wakeups are modelled as explicit wake reasons fed to
one pass of the relevant `run` loop.
-/

namespace MiniAir

/-- The `Key` enum of `util.py` (UP, DOWN, OK, CANCEL). -/
inductive Key where
  | up
  | down
  | ok
  | cancel
deriving DecidableEq, Repr

/-! ## MenuList (`menu.py` lines 53-153) -/

/-- Navigation state of a `MenuList`: the number of `menu_elements`
(the children themselves are irrelevant to navigation), the viewport
offset `start_row`, and the highlighted index `selected`. -/
structure MenuListState where
  numElems : Nat
  startRow : Nat
  selected : Nat
deriving DecidableEq, Repr

/-- A display operation emitted while handling a key press.  Rows are kept
as integers because the source computes them as Python ints
(`menu_index - self.start_row`). -/
inductive DisplayOp where
  | updateRow (row : Int) (highlight : Bool)
  | pushBack (highlight : Bool)
  | printLines (highlight : Int)
deriving DecidableEq, Repr

namespace MenuList

/-- `MenuList._display_row` (line 75): `menu_index - self.start_row`. -/
def displayRow (s : MenuListState) (menuIndex : Nat) : Int :=
  (menuIndex : Int) - (s.startRow : Int)

/-- `MenuList.change_highlight` (lines 78-88): un-highlight the old row,
then highlight the new one (texts are not modelled). -/
def change_highlight (s : MenuListState) (newHighlight oldHighlight : Nat) : List DisplayOp :=
  [DisplayOp.updateRow (displayRow s oldHighlight) false,
   DisplayOp.updateRow (displayRow s newHighlight) true]

/-- `MenuList.redraw` (lines 148-153): a full-viewport `print_lines` with
the highlight at `self._display_row(self.selected)`. -/
def redrawOp (s : MenuListState) : DisplayOp :=
  DisplayOp.printLines (displayRow s s.selected)

/-- `MenuList.key_press` (lines 90-146), restricted to the navigation state
of this node and the display operations this node emits on its own
viewport.  For `Key.ok` the node's own `selected`/`start_row` are untouched
(the branch only descends into or calls the selected child); for
`Key.cancel` both are reset to 0 and the redraw it triggers belongs to the
parent node, so no operation of this node is emitted. -/
def key_press (rows : Nat) (s : MenuListState) (k : Key) : MenuListState × List DisplayOp :=
  match k with
  | Key.up =>
      if 0 < s.selected then
        let sel := s.selected - 1
        if sel < s.startRow then
          let s1 : MenuListState := { s with selected := sel, startRow := sel }
          (s1, [redrawOp s1])
        else
          let s1 : MenuListState := { s with selected := sel }
          (s1, change_highlight s1 sel (sel + 1))
      else (s, [])
  | Key.down =>
      if s.selected + 1 < s.numElems then
        let sel := s.selected + 1
        if (rows : Int) ≤ (sel : Int) - (s.startRow : Int) then
          (({ s with selected := sel, startRow := s.startRow + 1 } : MenuListState),
           [DisplayOp.updateRow ((sel : Int) - (s.startRow : Int) - 1) false,
            DisplayOp.pushBack true])
        else
          let s1 : MenuListState := { s with selected := sel }
          (s1, change_highlight s1 sel (sel - 1))
      else (s, [])
  | Key.cancel => (({ s with selected := 0, startRow := 0 } : MenuListState), [])
  | Key.ok => (s, [])

/-- The state after a sequence of key presses. -/
def runKeys (rows : Nat) (s : MenuListState) (ks : List Key) : MenuListState :=
  ks.foldl (fun st k => (key_press rows st k).1) s

end MenuList

/-! ## FreqencyChoice (`menu.py` lines 335-395; source spelling kept) -/

/-- Pending-selection state of a `FreqencyChoice`: the frequency list and
the indices `current_frequency` and `new_frequency`. -/
structure FreqChoiceState where
  frequency_list : List Int
  current_frequency : Nat
  new_frequency : Nat
deriving DecidableEq, Repr

namespace FreqencyChoice

/-- `FreqencyChoice.key_press` (lines 358-388), the navigation-state part.
`Key.ok` additionally persists the chosen frequency through
`ConfigManager.update_config_values`; that side effect lives in the config
model and is not repeated here. -/
def key_press (s : FreqChoiceState) (k : Key) : FreqChoiceState :=
  match k with
  | Key.cancel => { s with new_frequency := s.current_frequency }
  | Key.up =>
      if 0 < s.new_frequency then
        { s with new_frequency := s.new_frequency - 1 }
      else
        { s with new_frequency :=
            if s.frequency_list.length ≠ 0 then s.frequency_list.length - 1 else 0 }
  | Key.down =>
      if s.new_frequency + 1 < s.frequency_list.length then
        { s with new_frequency := s.new_frequency + 1 }
      else
        { s with new_frequency := 0 }
  | Key.ok => { s with current_frequency := s.new_frequency }

end FreqencyChoice

/-! ## ConfigParser tables (`configparser` as used by `util.ConfigManager`)

A parsed configuration is a table of sections, each a list of key/value
pairs.  Keys inside a section and section names are unique in any table
produced by `ConfigParser`, so first-match lookup is faithful.  The INI
serialization itself is abstracted: file contents are stored already
parsed. -/

/-- A parsed config table: section name to key/value pairs. -/
abbrev ConfigTable := List (String × List (String × String))

instance {ε α : Type} [DecidableEq ε] [DecidableEq α] : DecidableEq (Except ε α) := fun a b =>
  match a, b with
  | Except.ok x, Except.ok y =>
      if h : x = y then Decidable.isTrue (by rw [h])
      else Decidable.isFalse (by intro hh; cases hh; exact h rfl)
  | Except.error x, Except.error y =>
      if h : x = y then Decidable.isTrue (by rw [h])
      else Decidable.isFalse (by intro hh; cases hh; exact h rfl)
  | Except.ok _, Except.error _ => Decidable.isFalse (by intro hh; cases hh)
  | Except.error _, Except.ok _ => Decidable.isFalse (by intro hh; cases hh)

/-- First-match lookup of a key in a section body (dict access). -/
def lookupPair : List (String × String) → String → Option String
  | [], _ => none
  | (k, v) :: rest, key => if k = key then some v else lookupPair rest key

/-- Replace the value of a key in a section body, appending when absent
(dict assignment `config[section][key] = value`). -/
def setPair : List (String × String) → String → String → List (String × String)
  | [], k, v => [(k, v)]
  | (k0, v0) :: rest, k, v =>
      if k0 = k then (k, v) :: rest else (k0, v0) :: setPair rest k v

/-- First-match lookup of a section (dict access `config[section]`). -/
def lookupSection : ConfigTable → String → Option (List (String × String))
  | [], _ => none
  | (n, kvs) :: rest, sec => if n = sec then some kvs else lookupSection rest sec

/-- `config[section][key]`, with `KeyError` rendered as `none`. -/
def lookupValue (t : ConfigTable) (sec key : String) : Option String :=
  match lookupSection t sec with
  | none => none
  | some kvs => lookupPair kvs key

/-- `ConfigParser.has_section`. -/
def hasSection : ConfigTable → String → Bool
  | [], _ => false
  | (n, _) :: rest, sec => if n = sec then true else hasSection rest sec

/-- `config[section][key] = value` on a table whose section exists. -/
def setValue : ConfigTable → String → String → String → ConfigTable
  | [], _, _, _ => []
  | (n, kvs) :: rest, sec, k, v =>
      if n = sec then (n, setPair kvs k v) :: rest
      else (n, kvs) :: setValue rest sec k v

/-- Lines 333-334 of `util.py`: `if not config.has_section(..): config.add_section(..)`. -/
def ensureSection (t : ConfigTable) (sec : String) : ConfigTable :=
  if hasSection t sec then t else t ++ [(sec, [])]

/-- Lines 335-336 of `util.py`: `for key, value in key_value.items(): config[s][key] = value`. -/
def applyUpdates (t : ConfigTable) (sec : String) (kv : List (String × String)) : ConfigTable :=
  kv.foldl (fun acc p => setValue acc sec p.1 p.2) t

/-! ## ConfigManager (`util.py` lines 239-341)

The two class-level cache entries (`_config_cache` for the sensor file,
`_display_cache` for the display file) are modelled explicitly.  Because
the Python code hands out references to the mutable cached `ConfigParser`
(or `deepcopy`s of it), the model keeps a heap of parser objects addressed
by `Ref`; the cache stores a reference, `deepcopy` allocates a fresh one.
File-system state is a `World`: per file an optional content/mtime pair,
`none` meaning the file is absent so `Path.stat` raises `OSError`
(`ConfigParser.read` itself tolerates a missing file and yields an empty
parser).  `readCount` instruments how many times `config.read` ran. -/

/-- Address of a `ConfigParser` object in the heap. -/
abbrev Ref := Nat

/-- On-disk state of one config file: parsed content plus `st_mtime`. -/
structure FileState where
  content : ConfigTable
  st_mtime : Int
deriving DecidableEq, Repr

/-- The file system seen by `ConfigManager`: the sensor config file and the
display config file. -/
structure World where
  sensor_file : Option FileState
  display_file : Option FileState
deriving DecidableEq, Repr

/-- One cache entry (`ConfigManager.ConfigCache`): the stored modification
time and an optional reference to the cached parser.  The initial
`st_mtime` is `float(-inf)` in the source; `-1` plays that role here
(it is never compared against a file mtime while `config` is `None`). -/
structure CacheEntry where
  st_mtime : Int
  config : Option Ref
deriving DecidableEq, Repr

/-- The state of the `ConfigManager` class plus the object heap and the
read-instrumentation counter. -/
structure CMState where
  heap : List ConfigTable
  sensor_cache : CacheEntry
  display_cache : CacheEntry
  readCount : Nat
deriving DecidableEq, Repr

/-- The config file selected by `display_config` (lines 264, 273, 329). -/
def fileOf (w : World) (displayConfig : Bool) : Option FileState :=
  if displayConfig then w.display_file else w.sensor_file

/-- The cache entry selected by `display_config`. -/
def cacheOf (s : CMState) (displayConfig : Bool) : CacheEntry :=
  if displayConfig then s.display_cache else s.sensor_cache

/-- Replace the cache entry selected by `display_config`. -/
def setCache (s : CMState) (displayConfig : Bool) (c : CacheEntry) : CMState :=
  if displayConfig then { s with display_cache := c } else { s with sensor_cache := c }

/-- Replace the file selected by `display_config` (the effect of writing it). -/
def setFile (w : World) (displayConfig : Bool) (f : FileState) : World :=
  if displayConfig then { w with display_file := some f } else { w with sensor_file := some f }

/-- `config.read(config_file)`: a missing file is tolerated and yields an
empty parser (lines 280, 291). -/
def readFile (w : World) (displayConfig : Bool) : ConfigTable :=
  match fileOf w displayConfig with
  | some f => f.content
  | none => []

/-- `Path(config_file).stat().st_mtime`: `none` models the `OSError` raised
on a missing file (lines 282, 285). -/
def statFile (w : World) (displayConfig : Bool) : Option Int :=
  (fileOf w displayConfig).map FileState.st_mtime

/-- Content of the parser object at `r` (defaulting to an empty table for a
dangling reference, which never occurs in well-formed states). -/
def derefTable (s : CMState) (r : Ref) : ConfigTable :=
  s.heap.getD r []

/-- A cache reference, when present, points into the heap. -/
def refOk (o : Option Ref) (n : Nat) : Bool :=
  match o with
  | none => true
  | some r => r < n

/-- Well-formedness of a `CMState`: both cache references are valid. -/
def WF (s : CMState) : Prop :=
  refOk s.sensor_cache.config s.heap.length = true ∧
  refOk s.display_cache.config s.heap.length = true

namespace ConfigManager

/-- The `CONFIG` section names of `util.py` selected by `display_config`
(lines 315, 330). -/
def sectionName (displayConfig : Bool) : String :=
  if displayConfig then "display_config" else "sensors_config"

/-- Body of `ConfigManager._get_config` after the display short-circuit
(lines 273-295).  The `none` branch reads the file first (line 280) and
stats it afterwards (line 282), so a read is counted even when the
subsequent stat raises; the `some` branch stats first (line 285) and
reloads exactly when the mtime changed (lines 286-292). -/
def getConfigLoad (displayConfig : Bool) (w : World) (s : CMState) :
    Except Unit Ref × CMState :=
  match (cacheOf s displayConfig).config with
  | none =>
      let table := readFile w displayConfig
      let s1 : CMState := { s with readCount := s.readCount + 1 }
      match statFile w displayConfig with
      | none => (Except.error (), s1)
      | some m =>
          let r := s1.heap.length
          let s2 : CMState := { s1 with heap := s1.heap ++ [table] }
          (Except.ok r, setCache s2 displayConfig { st_mtime := m, config := some r })
  | some r =>
      match statFile w displayConfig with
      | none => (Except.error (), s)
      | some m =>
          if m ≠ (cacheOf s displayConfig).st_mtime then
            let table := readFile w displayConfig
            let s1 : CMState := { s with readCount := s.readCount + 1 }
            let r2 := s1.heap.length
            let s2 : CMState := { s1 with heap := s1.heap ++ [table] }
            (Except.ok r2, setCache s2 displayConfig { st_mtime := m, config := some r2 })
          else (Except.ok r, s)

/-- `ConfigManager._get_config` (lines 267-295).  Line 270 returns the
cached display parser, when one exists, before any mtime check. -/
def getConfigInner (displayConfig : Bool) (w : World) (s : CMState) :
    Except Unit Ref × CMState :=
  match displayConfig, s.display_cache.config with
  | true, some r => (Except.ok r, s)
  | true, none => getConfigLoad true w s
  | false, _ => getConfigLoad false w s

/-- `ConfigManager.get_config` (lines 297-310): on `OSError` a fresh empty
parser replaces the result; either way the returned object is a `deepcopy`,
modelled as a fresh heap allocation. -/
def get_config (displayConfig : Bool) (w : World) (s : CMState) : Ref × CMState :=
  match getConfigInner displayConfig w s with
  | (Except.ok r, s1) => (s1.heap.length, { s1 with heap := s1.heap ++ [derefTable s1 r] })
  | (Except.error _, s1) => (s1.heap.length, { s1 with heap := s1.heap ++ [[]] })

/-- `ConfigManager.get_config_value` (lines 312-325): reads through
`_get_config` (no copy), `KeyError` and `OSError` both yield `None`. -/
def get_config_value (key : String) (displayConfig : Bool) (w : World) (s : CMState) :
    Option String × CMState :=
  match getConfigInner displayConfig w s with
  | (Except.error _, s1) => (none, s1)
  | (Except.ok r, s1) => (lookupValue (derefTable s1 r) (sectionName displayConfig) key, s1)

/-- `ConfigManager.update_config_values` (lines 327-341).  The merged table
is produced by mutating the parser returned by `_get_config` in place
(which is the cached object), then written directly to the config path with
`config_path.open("w")` followed by `config.write(file)`; finally the
cached mtime is set to the mtime the write gave the file (`newMtime`, since
no external modification intervenes).  An `OSError` from `_get_config`
propagates to the caller. -/
def update_config_values (kv : List (String × String)) (displayConfig : Bool)
    (newMtime : Int) (w : World) (s : CMState) : Except Unit World × CMState :=
  match getConfigInner displayConfig w s with
  | (Except.error e, s1) => (Except.error e, s1)
  | (Except.ok r, s1) =>
      let sec := sectionName displayConfig
      let merged := applyUpdates (ensureSection (derefTable s1 r) sec) sec kv
      let s2 : CMState := { s1 with heap := s1.heap.set r merged }
      let w2 := setFile w displayConfig { content := merged, st_mtime := newMtime }
      let s3 := setCache s2 displayConfig { cacheOf s2 displayConfig with st_mtime := newMtime }
      (Except.ok w2, s3)

/-- File-operation granularity of lines 337-339: `config_path.open("w")`
truncates the file to empty before `config.write(file)` streams the merged
table, so the externally visible contents of the path during one update are
the prior content, the truncated empty file, and the merged content (there
is no temporary file and no rename). -/
def updateWriteTrace (before merged : ConfigTable) : List ConfigTable :=
  [before, [], merged]

end ConfigManager

/-! ## Timers (`util.py` lines 101-156)

The two timer classes are modelled through the flags their control methods
set and through one pass of their `run` loops.  A `threading.Event` becomes
a `Bool` (`finished`), wait outcomes become explicit wake reasons.  All
control methods are total functions: none of them can raise. -/

/-- Flags of a `ResettableTimer`: the inherited `finished` event and the
`_end` flag (spelled `ended` because `end` is reserved). -/
structure ResettableTimerState where
  finished : Bool
  ended : Bool
deriving DecidableEq, Repr

namespace ResettableTimer

/-- `ResettableTimer.cancel` (lines 108-112): `Timer.cancel` sets
`finished`, then `_end` is set and the condition is notified. -/
def cancel (_s : ResettableTimerState) : ResettableTimerState :=
  { finished := true, ended := true }

/-- `ResettableTimer.stop` (lines 114-117): notifies the condition only; no
flag changes.  The notification itself is delivered to the run loop as the
`InnerWake.notified` outcome below. -/
def stop (s : ResettableTimerState) : ResettableTimerState :=
  s

/-- `ResettableTimer.reset` (lines 119-125): notifies and sets `finished`
(rearming the loop); the optional new interval is not modelled. -/
def reset (s : ResettableTimerState) : ResettableTimerState :=
  { s with finished := true }

/-- Outcome of `self._function_wait.wait(self.interval)` inside `run`:
either some control call notified the condition before the interval
elapsed, or the wait timed out. -/
inductive InnerWake where
  | notified
  | timedOut
deriving DecidableEq, Repr

/-- One pass of `ResettableTimer.run` (lines 127-135) after
`finished.wait()` woke up: with `_end` set the loop breaks at once and the
function never runs; otherwise `finished` is cleared and the function runs
exactly when the inner wait timed out.  Returns whether the function fired
together with the resulting flags. -/
def runPass (s : ResettableTimerState) (wake : InnerWake) : Bool × ResettableTimerState :=
  if s.ended then (false, s)
  else
    match wake with
    | InnerWake.timedOut => (true, { s with finished := false })
    | InnerWake.notified => (false, { s with finished := false })

end ResettableTimer

/-- Flags of a `RepeatTimer`: the `stop` attribute and the inherited
`finished` event. -/
structure RepeatTimerState where
  stop : Bool
  finished : Bool
deriving DecidableEq, Repr

namespace RepeatTimer

/-- `RepeatTimer.cancel` (lines 143-145): sets `stop`, and `Timer.cancel`
sets `finished`. -/
def cancel (_s : RepeatTimerState) : RepeatTimerState :=
  { stop := true, finished := true }

/-- One iteration of `RepeatTimer.run` (lines 152-156): with `stop` set the
loop exits and nothing fires; otherwise `finished.wait(interval)` returns
immediately when the event is already set (no fire), and the function fires
exactly when the wait timed out.  `finished` is cleared afterwards. -/
def runPass (t : RepeatTimerState) (timedOut : Bool) : Bool × RepeatTimerState :=
  if t.stop then (false, t)
  else if t.finished then (false, { t with finished := false })
  else if timedOut then (true, { t with finished := false })
  else (false, { t with finished := false })

end RepeatTimer

/-! ## Switch (`util.py` lines 159-208) -/

/-- A command issued to the long-press `ResettableTimer` by
`Switch.change_state`. -/
inductive TimerCmd where
  | resetLong
  | stopLong
deriving DecidableEq, Repr

/-- Everything `Switch.change_state` produces: the new committed state, the
`callback(key, longPress)` invocations, and the commands sent to the
long-press timer. -/
structure SwitchEffects where
  current_state : Bool
  events : List (Key × Bool)
  timer_cmds : List TimerCmd
deriving DecidableEq, Repr

namespace Switch

/-- `Switch.change_state` (lines 194-200): toggle `current_state`; on a
transition to pressed, call `callback(key, False)` and reset the long-press
timer; on a transition to released, stop the long-press timer. -/
def change_state (key : Key) (currentState : Bool) : SwitchEffects :=
  let ns := !currentState
  if ns then
    { current_state := ns, events := [(key, false)], timer_cmds := [TimerCmd.resetLong] }
  else
    { current_state := ns, events := [], timer_cmds := [TimerCmd.stopLong] }

end Switch

/-! ## Derived operations and concrete fixtures -/

/-- The menu state reached from `selected = 0`, `start_row = 0` after a key
sequence, for a list of `n` children on a display of `rows` rows. -/
def menuAfter (n rows : Nat) (ks : List Key) : MenuListState :=
  MenuList.runKeys rows { numElems := n, startRow := 0, selected := 0 } ks

/-- The viewport invariant of a `MenuList` on a display with `rows` rows:
the highlighted entry lies inside the viewport and the viewport offset
never exceeds `numElems - rows` (truncated at 0).  Stated over `Nat`; the
claim-level integer form follows because `rows ≥ 1`. -/
def menuInv (rows : Nat) (s : MenuListState) : Prop :=
  s.startRow ≤ s.selected ∧
  s.selected + 1 ≤ s.startRow + rows ∧
  s.startRow ≤ s.numElems - rows

/-- A caller mutating the `ConfigParser` object it received from
`get_config`: overwrite the table stored at `r`. -/
def mutateRef (s : CMState) (r : Ref) (c : ConfigTable) : CMState :=
  { s with heap := s.heap.set r c }

/-- A sample sensor config table. -/
def sampleTable : ConfigTable := [("sensors_config", [("k", "v")])]

/-- A sample cache state: the sensor config is cached at heap address 0
with stored mtime 3; the display config is not cached. -/
def sampleState : CMState :=
  { heap := [sampleTable],
    sensor_cache := { st_mtime := 3, config := some 0 },
    display_cache := { st_mtime := -1, config := none },
    readCount := 0 }

/-- A sample world whose sensor file matches `sampleState` (mtime 3). -/
def sampleWorld : World :=
  { sensor_file := some { content := sampleTable, st_mtime := 3 }, display_file := none }

/-- `sampleTable` after `update_config_values [("k2", "w")]`. -/
def sampleMergedTable : ConfigTable := [("sensors_config", [("k", "v"), ("k2", "w")])]

/-- The world after that update wrote the sensor file at mtime 9. -/
def sampleWorldAfter : World :=
  { sensor_file := some { content := sampleMergedTable, st_mtime := 9 }, display_file := none }

/-- The cache state after that update. -/
def sampleStateAfter : CMState :=
  { heap := [sampleMergedTable],
    sensor_cache := { st_mtime := 9, config := some 0 },
    display_cache := { st_mtime := -1, config := none },
    readCount := 0 }

/-- A world in which both config files are missing, so every `stat` raises
`OSError`. -/
def missingWorld : World := { sensor_file := none, display_file := none }

/-- A cache state holding both a cached sensor config (heap address 0,
mtime 3) and a cached display config (heap address 1, mtime 5). -/
def bothCachedState : CMState :=
  { heap := [sampleTable, [("display_config", [("k", "old")])]],
    sensor_cache := { st_mtime := 3, config := some 0 },
    display_cache := { st_mtime := 5, config := some 1 },
    readCount := 0 }

/-- A cache state holding a cached display config (value `old` under key
`k`) with stored mtime 5. -/
def displayCachedState : CMState :=
  { heap := [[("display_config", [("k", "old")])]],
    sensor_cache := { st_mtime := -1, config := none },
    display_cache := { st_mtime := 5, config := some 0 },
    readCount := 0 }

/-- A world whose display file has been modified on disk (new content,
mtime 7) since `displayCachedState` cached it at mtime 5. -/
def displayChangedWorld : World :=
  { sensor_file := none,
    display_file := some { content := [("display_config", [("k", "new")])], st_mtime := 7 } }

/-! ## Helper lemmas: tables -/

theorem lookupPair_setPair_self (l : List (String × String)) (k v : String) :
    lookupPair (setPair l k v) k = some v := by
  induction l with
  | nil => simp [setPair, lookupPair]
  | cons p rest ih =>
      obtain ⟨k0, v0⟩ := p
      by_cases h : k0 = k
      · simp [setPair, h, lookupPair]
      · simp [setPair, h, lookupPair, ih]

theorem lookupPair_setPair_ne (l : List (String × String)) (k v k2 : String) (h : k2 ≠ k) :
    lookupPair (setPair l k v) k2 = lookupPair l k2 := by
  induction l with
  | nil =>
      simp only [setPair, lookupPair]
      rw [if_neg fun hh => h hh.symm]
  | cons p rest ih =>
      obtain ⟨k0, v0⟩ := p
      by_cases h0 : k0 = k
      · subst h0
        simp only [setPair, if_pos rfl, lookupPair]
        rw [if_neg fun hh => h hh.symm, if_neg fun hh => h hh.symm]
      · simp [setPair, h0, lookupPair, ih]

theorem hasSection_setValue (t : ConfigTable) (sec k v sec2 : String) :
    hasSection (setValue t sec k v) sec2 = hasSection t sec2 := by
  induction t with
  | nil => rfl
  | cons p rest ih =>
      obtain ⟨n, kvs⟩ := p
      by_cases h : n = sec
      · simp [setValue, h, hasSection]
      · simp [setValue, h, hasSection, ih]

theorem lookupValue_setValue_self (t : ConfigTable) (sec k v : String)
    (hsec : hasSection t sec = true) :
    lookupValue (setValue t sec k v) sec k = some v := by
  induction t with
  | nil => simp [hasSection] at hsec
  | cons p rest ih =>
      obtain ⟨n, kvs⟩ := p
      by_cases h : n = sec
      · simp [setValue, h, lookupValue, lookupSection, lookupPair_setPair_self]
      · simp only [hasSection, if_neg h] at hsec
        simpa [setValue, h, lookupValue, lookupSection] using ih hsec

theorem lookupValue_setValue_ne (t : ConfigTable) (sec k v k2 : String) (h : k2 ≠ k) :
    lookupValue (setValue t sec k v) sec k2 = lookupValue t sec k2 := by
  induction t with
  | nil => rfl
  | cons p rest ih =>
      obtain ⟨n, kvs⟩ := p
      by_cases h0 : n = sec
      · simp [setValue, h0, lookupValue, lookupSection, lookupPair_setPair_ne _ _ _ _ h]
      · simpa [setValue, h0, lookupValue, lookupSection] using ih

theorem applyUpdates_cons (t : ConfigTable) (sec : String) (p : String × String)
    (kv : List (String × String)) :
    applyUpdates t sec (p :: kv) = applyUpdates (setValue t sec p.1 p.2) sec kv := rfl

theorem lookupValue_applyUpdates_not_mem (t : ConfigTable) (sec k : String)
    (kv : List (String × String)) (h : k ∉ kv.map Prod.fst) :
    lookupValue (applyUpdates t sec kv) sec k = lookupValue t sec k := by
  induction kv generalizing t with
  | nil => rfl
  | cons p rest ih =>
      obtain ⟨k0, v0⟩ := p
      simp only [List.map_cons, List.mem_cons] at h
      push_neg at h
      rw [applyUpdates_cons, ih _ h.2, lookupValue_setValue_ne _ _ _ _ _ h.1]

theorem lookupValue_applyUpdates (t : ConfigTable) (sec k v : String)
    (kv : List (String × String)) (hsec : hasSection t sec = true)
    (hnd : (kv.map Prod.fst).Nodup) (hmem : (k, v) ∈ kv) :
    lookupValue (applyUpdates t sec kv) sec k = some v := by
  induction kv generalizing t with
  | nil => cases hmem
  | cons p rest ih =>
      obtain ⟨k0, v0⟩ := p
      simp only [List.map_cons] at hnd
      rw [applyUpdates_cons]
      rcases List.mem_cons.mp hmem with heq | hmemr
      · injection heq with h1 h2
        subst h1; subst h2
        have hk : k ∉ rest.map Prod.fst := (List.nodup_cons.mp hnd).1
        rw [lookupValue_applyUpdates_not_mem _ _ _ _ hk,
          lookupValue_setValue_self _ _ _ _ hsec]
      · exact ih _ (by rw [hasSection_setValue]; exact hsec)
          (List.nodup_cons.mp hnd).2 hmemr

theorem hasSection_append_self (t : ConfigTable) (sec : String)
    (kvs : List (String × String)) :
    hasSection (t ++ [(sec, kvs)]) sec = true := by
  induction t with
  | nil => simp [hasSection]
  | cons p rest ih =>
      obtain ⟨n, kvs0⟩ := p
      by_cases h : n = sec <;> simp [hasSection, h, ih]

theorem hasSection_ensureSection (t : ConfigTable) (sec : String) :
    hasSection (ensureSection t sec) sec = true := by
  unfold ensureSection
  by_cases h : hasSection t sec <;> simp [h, hasSection_append_self]

/-! ## Helper lemmas: heap access -/

theorem getD_append_length (l : List ConfigTable) (a d : ConfigTable) :
    (l ++ [a]).getD l.length d = a := by
  induction l with
  | nil => rfl
  | cons x rest ih => simp [List.getD]

theorem getD_append_lt (l : List ConfigTable) (a d : ConfigTable) (n : Nat)
    (h : n < l.length) : (l ++ [a]).getD n d = l.getD n d := by
  induction l generalizing n with
  | nil => cases h
  | cons x rest ih =>
      cases n with
      | zero => rfl
      | succ n => simpa [List.getD] using ih n (by simpa using h)

theorem getD_set_self (l : List ConfigTable) (n : Nat) (a d : ConfigTable)
    (h : n < l.length) : (l.set n a).getD n d = a := by
  induction l generalizing n with
  | nil => cases h
  | cons x rest ih =>
      cases n with
      | zero => rfl
      | succ n => simpa [List.getD] using ih n (by simpa using h)

theorem getD_set_ne (l : List ConfigTable) (n m : Nat) (a d : ConfigTable)
    (h : n ≠ m) : (l.set n a).getD m d = l.getD m d := by
  induction l generalizing n m with
  | nil => rfl
  | cons x rest ih =>
      cases n with
      | zero =>
          cases m with
          | zero => exact absurd rfl h
          | succ m => rfl
      | succ n =>
          cases m with
          | zero => rfl
          | succ m => simpa [List.getD] using ih n m (by omega)

/-! ## Helper lemmas: ConfigManager state -/

theorem cacheOf_setCache_self (s : CMState) (dc : Bool) (c : CacheEntry) :
    cacheOf (setCache s dc c) dc = c := by
  cases dc <;> rfl

theorem setCache_heap (s : CMState) (dc : Bool) (c : CacheEntry) :
    (setCache s dc c).heap = s.heap := by
  cases dc <;> rfl

theorem statFile_setFile_self (w : World) (dc : Bool) (f : FileState) :
    statFile (setFile w dc f) dc = some f.st_mtime := by
  cases dc <;> rfl

theorem cacheOf_heapOnly (s : CMState) (h : List ConfigTable) (dc : Bool) :
    cacheOf { s with heap := h } dc = cacheOf s dc := by
  cases dc <;> rfl

theorem cacheOf_mutateRef (s : CMState) (r : Ref) (c : ConfigTable) (dc : Bool) :
    cacheOf (mutateRef s r c) dc = cacheOf s dc := by
  cases dc <;> rfl

theorem lt_of_refOk {o : Option Ref} {n : Nat} {r : Ref}
    (h : refOk o n = true) (ho : o = some r) : r < n := by
  subst ho
  simpa [refOk] using h

theorem WF_cacheOf {s : CMState} {dc : Bool} {r : Ref}
    (hwf : WF s) (h : (cacheOf s dc).config = some r) : r < s.heap.length := by
  cases dc
  · exact lt_of_refOk hwf.1 (by simpa [cacheOf] using h)
  · exact lt_of_refOk hwf.2 (by simpa [cacheOf] using h)

namespace ConfigManager

/-- When the selected cache entry exists and the on-disk mtime equals the
stored one, `_get_config` returns the cached reference and changes
nothing.  For the display config the mtime hypothesis is not even needed by
the code path (line 270 short-circuits), but it keeps the statement
uniform. -/
theorem getConfigInner_cached {dc : Bool} {w : World} {s : CMState} {rc : Ref}
    (hc : (cacheOf s dc).config = some rc)
    (hstat : statFile w dc = some (cacheOf s dc).st_mtime) :
    getConfigInner dc w s = (Except.ok rc, s) := by
  cases dc
  · have hc2 : s.sensor_cache.config = some rc := by simpa [cacheOf] using hc
    simp only [getConfigInner, getConfigLoad, cacheOf, if_neg, Bool.false_eq_true,
      ite_false] at *
    rw [hc2, hstat]
    simp
  · have hc2 : s.display_cache.config = some rc := by simpa [cacheOf] using hc
    simp [getConfigInner, hc2]

/-- Any successful `_get_config` leaves the selected cache entry pointing
at the returned reference, and that reference is inside the heap. -/
theorem getConfigLoad_ok {dc : Bool} {w : World} {s : CMState} {r : Ref} {s1 : CMState}
    (hwf : WF s) (h : getConfigLoad dc w s = (Except.ok r, s1)) :
    (cacheOf s1 dc).config = some r ∧ r < s1.heap.length := by
  rcases hcc : (cacheOf s dc).config with _ | r0 <;>
    rcases hst : statFile w dc with _ | m <;>
      simp only [getConfigLoad, hcc, hst] at h
  · simp at h
  · simp only [Prod.mk.injEq, Except.ok.injEq] at h
    obtain ⟨rfl, rfl⟩ := h
    refine ⟨by rw [cacheOf_setCache_self], ?_⟩
    rw [setCache_heap]
    simp
  · simp at h
  · by_cases hm : m ≠ (cacheOf s dc).st_mtime
    · rw [if_pos hm] at h
      simp only [Prod.mk.injEq, Except.ok.injEq] at h
      obtain ⟨rfl, rfl⟩ := h
      refine ⟨by rw [cacheOf_setCache_self], ?_⟩
      rw [setCache_heap]
      simp
    · rw [if_neg hm] at h
      simp only [Prod.mk.injEq, Except.ok.injEq] at h
      obtain ⟨rfl, rfl⟩ := h
      exact ⟨hcc, WF_cacheOf hwf hcc⟩

/-- `getConfigLoad_ok` lifted through the display short-circuit. -/
theorem getConfigInner_ok {dc : Bool} {w : World} {s : CMState} {r : Ref} {s1 : CMState}
    (hwf : WF s) (h : getConfigInner dc w s = (Except.ok r, s1)) :
    (cacheOf s1 dc).config = some r ∧ r < s1.heap.length := by
  cases dc
  · exact getConfigLoad_ok hwf (by simpa [getConfigInner] using h)
  · rcases hdc : s.display_cache.config with _ | r0
    · exact getConfigLoad_ok hwf (by simpa [getConfigInner, hdc] using h)
    · simp only [getConfigInner, hdc, Prod.mk.injEq, Except.ok.injEq] at h
      obtain ⟨rfl, rfl⟩ := h
      have hc2 : (cacheOf s true).config = some r0 := by simpa [cacheOf] using hdc
      exact ⟨hc2, WF_cacheOf hwf hc2⟩

/-- Reading a key right after `update_config_values` finished: the state
and world are exactly those the update produced, the cache still points at
the in-place mutated parser, the file mtime equals the freshly stored one,
so the read is a pure cache hit returning the merged table's value and
changing nothing. -/
theorem get_after_update_aux (dc : Bool) (w : World) (s1 : CMState) (r : Ref)
    (M : ConfigTable) (m : Int) (k v : String)
    (hcc : (cacheOf s1 dc).config = some r) (hlt : r < s1.heap.length)
    (hlook : lookupValue M (sectionName dc) k = some v) :
    get_config_value k dc
      (setFile w dc { content := M, st_mtime := m })
      (setCache { s1 with heap := s1.heap.set r M } dc
        { cacheOf { s1 with heap := s1.heap.set r M } dc with st_mtime := m }) =
    (some v,
     setCache { s1 with heap := s1.heap.set r M } dc
       { cacheOf { s1 with heap := s1.heap.set r M } dc with st_mtime := m }) := by
  have hc2 :
      (cacheOf (setCache { s1 with heap := s1.heap.set r M } dc
        { cacheOf { s1 with heap := s1.heap.set r M } dc with st_mtime := m }) dc).config
        = some r := by
    rw [cacheOf_setCache_self]
    show (cacheOf { s1 with heap := s1.heap.set r M } dc).config = some r
    rw [cacheOf_heapOnly]
    exact hcc
  have hm2 :
      (cacheOf (setCache { s1 with heap := s1.heap.set r M } dc
        { cacheOf { s1 with heap := s1.heap.set r M } dc with st_mtime := m }) dc).st_mtime
        = m := by
    rw [cacheOf_setCache_self]
  have hgi :
      getConfigInner dc (setFile w dc { content := M, st_mtime := m })
        (setCache { s1 with heap := s1.heap.set r M } dc
          { cacheOf { s1 with heap := s1.heap.set r M } dc with st_mtime := m }) =
      (Except.ok r,
       setCache { s1 with heap := s1.heap.set r M } dc
         { cacheOf { s1 with heap := s1.heap.set r M } dc with st_mtime := m }) :=
    getConfigInner_cached hc2 (by rw [statFile_setFile_self, hm2])
  simp only [get_config_value, hgi]
  have hder :
      derefTable (setCache { s1 with heap := s1.heap.set r M } dc
        { cacheOf { s1 with heap := s1.heap.set r M } dc with st_mtime := m }) r = M := by
    show (setCache { s1 with heap := s1.heap.set r M } dc
      { cacheOf { s1 with heap := s1.heap.set r M } dc with st_mtime := m }).heap.getD r [] = M
    rw [setCache_heap]
    exact getD_set_self _ _ _ _ hlt
  rw [hder, hlook]

end ConfigManager

/-! ## Helper lemmas: MenuList navigation -/

theorem key_press_numElems (rows : Nat) (s : MenuListState) (k : Key) :
    ((MenuList.key_press rows s k).1).numElems = s.numElems := by
  cases k <;> simp only [MenuList.key_press] <;> split_ifs <;> rfl

theorem runKeys_cons (rows : Nat) (s : MenuListState) (k : Key) (ks : List Key) :
    MenuList.runKeys rows s (k :: ks) =
      MenuList.runKeys rows (MenuList.key_press rows s k).1 ks := rfl

theorem menuInv_key_press (rows : Nat) (hR : 0 < rows) (s : MenuListState) (k : Key)
    (hk : k = Key.up ∨ k = Key.down) (h : menuInv rows s) :
    menuInv rows (MenuList.key_press rows s k).1 := by
  obtain ⟨h1, h2, h3⟩ := h
  rcases hk with rfl | rfl <;>
    simp only [MenuList.key_press] <;>
    split_ifs with hc1 hc2 <;>
    refine ⟨?_, ?_, ?_⟩ <;>
    simp only [menuInv] <;>
    omega

theorem menuInv_runKeys (rows : Nat) (hR : 0 < rows) (ks : List Key)
    (hks : ∀ k ∈ ks, k = Key.up ∨ k = Key.down) (s : MenuListState)
    (h : menuInv rows s) :
    menuInv rows (MenuList.runKeys rows s ks) ∧
    (MenuList.runKeys rows s ks).numElems = s.numElems := by
  induction ks generalizing s with
  | nil => exact ⟨h, rfl⟩
  | cons k rest ih =>
      have hk := hks k (List.mem_cons_self k rest)
      have hrest := fun k2 hk2 => hks k2 (List.mem_cons_of_mem k hk2)
      have hstep := menuInv_key_press rows hR s k hk h
      obtain ⟨ha, hb⟩ := ih hrest _ hstep
      rw [runKeys_cons]
      refine ⟨ha, ?_⟩
      rw [hb, key_press_numElems]

/-! ## Claim theorems -/

/-- C3: starting from `selected = 0`, `start_row = 0`, any sequence of Up
and Down presses on a list of `n` children shown on a display with
`rows ≥ 1` rows keeps `start_row ≤ selected ≤ start_row + rows - 1` and
`0 ≤ start_row ≤ max 0 (n - rows)`. -/
theorem c3_menu_viewport_invariant (n rows : Nat) (hR : 0 < rows) (ks : List Key)
    (hks : ∀ k ∈ ks, k = Key.up ∨ k = Key.down) :
    (menuAfter n rows ks).startRow ≤ (menuAfter n rows ks).selected ∧
    ((menuAfter n rows ks).selected : Int) ≤
      ((menuAfter n rows ks).startRow : Int) + (rows : Int) - 1 ∧
    (0 : Int) ≤ ((menuAfter n rows ks).startRow : Int) ∧
    ((menuAfter n rows ks).startRow : Int) ≤ max 0 ((n : Int) - (rows : Int)) := by
  have h0 : menuInv rows { numElems := n, startRow := 0, selected := 0 } := by
    refine ⟨Nat.le_refl 0, ?_, Nat.zero_le _⟩
    show 0 + 1 ≤ 0 + rows
    omega
  obtain ⟨⟨h1, h2, h3⟩, hN⟩ := menuInv_runKeys rows hR ks hks _ h0
  have hN2 :
      (MenuList.runKeys rows { numElems := n, startRow := 0, selected := 0 } ks).numElems
        = n := hN
  unfold menuAfter
  rw [hN2] at h3
  exact ⟨h1, by omega, by omega, by omega⟩

/-- Witness for `c3_menu_viewport_invariant`: 10 children, 4 rows, the
sequence Down, Down, Up. -/
theorem c3_menu_viewport_invariant_witness :
    0 < 4 ∧ (∀ k ∈ [Key.down, Key.down, Key.up], k = Key.up ∨ k = Key.down) ∧
    ((menuAfter 10 4 [Key.down, Key.down, Key.up]).startRow ≤
        (menuAfter 10 4 [Key.down, Key.down, Key.up]).selected ∧
      ((menuAfter 10 4 [Key.down, Key.down, Key.up]).selected : Int) ≤
        ((menuAfter 10 4 [Key.down, Key.down, Key.up]).startRow : Int) + (4 : Int) - 1 ∧
      (0 : Int) ≤ ((menuAfter 10 4 [Key.down, Key.down, Key.up]).startRow : Int) ∧
      ((menuAfter 10 4 [Key.down, Key.down, Key.up]).startRow : Int) ≤
        max 0 ((10 : Int) - (4 : Int))) :=
  ⟨by decide, by decide, c3_menu_viewport_invariant 10 4 (by decide) _ (by decide)⟩

/-- C6: for both timer classes, a second `cancel()` after a completed first
one is a no-op: it produces the same flag state (and, being a total
function of the flags, cannot raise), and a run-loop pass on a cancelled
timer never fires the action, whatever wakes it. -/
theorem c6_cancel_idempotent (s : ResettableTimerState) (t : RepeatTimerState)
    (wake : ResettableTimer.InnerWake) (timedOut : Bool) :
    ResettableTimer.cancel (ResettableTimer.cancel s) = ResettableTimer.cancel s ∧
    (ResettableTimer.runPass (ResettableTimer.cancel s) wake).1 = false ∧
    RepeatTimer.cancel (RepeatTimer.cancel t) = RepeatTimer.cancel t ∧
    (RepeatTimer.runPass (RepeatTimer.cancel t) timedOut).1 = false := by
  refine ⟨rfl, ?_, rfl, ?_⟩ <;>
    simp [ResettableTimer.cancel, ResettableTimer.runPass,
      RepeatTimer.cancel, RepeatTimer.runPass]

/-- C7: a debounced commit to pressed emits exactly one
`callback(key, False)` and resets (arms) the long-press timer; a commit to
released emits nothing and stops the long-press timer, and a not-yet-ended
`ResettableTimer` whose inner wait is interrupted by that stop
notification does not fire. -/
theorem c7_switch_commit (k : Key) :
    Switch.change_state k false =
      { current_state := true, events := [(k, false)],
        timer_cmds := [TimerCmd.resetLong] } ∧
    Switch.change_state k true =
      { current_state := false, events := [], timer_cmds := [TimerCmd.stopLong] } ∧
    (∀ s : ResettableTimerState, s.ended = false →
      (ResettableTimer.runPass s ResettableTimer.InnerWake.notified).1 = false) := by
  refine ⟨rfl, rfl, ?_⟩
  intro s hs
  simp [ResettableTimer.runPass, hs]

/-- Witness for `c7_switch_commit` at `Key.ok` and a freshly armed
long-press timer. -/
theorem c7_switch_commit_witness :
    Switch.change_state Key.ok false =
      { current_state := true, events := [(Key.ok, false)],
        timer_cmds := [TimerCmd.resetLong] } ∧
    (ResettableTimer.runPass { finished := false, ended := false }
        ResettableTimer.InnerWake.notified).1 = false :=
  ⟨(c7_switch_commit Key.ok).1,
   (c7_switch_commit Key.ok).2.2 { finished := false, ended := false } rfl⟩

/-- C8: from `selected = 0`, `start_row = 0` in a 10-leaf list on a 4-row
display, six Down presses give `selected = 6`, `start_row = 3`; one further
Up press gives `selected = 5`, keeps `start_row = 3`, and emits exactly the
two-row highlight swap (un-highlight display row 3, highlight display row
2) — no `push_back` and no full `print_lines` redraw. -/
theorem c8_scroll_scenario :
    MenuList.runKeys 4 { numElems := 10, startRow := 0, selected := 0 }
        (List.replicate 6 Key.down) =
      { numElems := 10, startRow := 3, selected := 6 } ∧
    MenuList.key_press 4 { numElems := 10, startRow := 3, selected := 6 } Key.up =
      ({ numElems := 10, startRow := 3, selected := 5 },
       [DisplayOp.updateRow 3 false, DisplayOp.updateRow 2 true]) := by
  constructor <;> rfl

/-- C10: on a `FreqencyChoice` with a non-empty `frequency_list` and an
in-range pending index, Up and Down keep `new_frequency` in range and wrap
cyclically: Up at index 0 goes to the last index, Down at the last index
goes to 0; with at least two entries neither key ever leaves
`new_frequency` unchanged. -/
theorem c10_freq_wraparound (s : FreqChoiceState)
    (hne : 0 < s.frequency_list.length)
    (hin : s.new_frequency < s.frequency_list.length) :
    (FreqencyChoice.key_press s Key.up).new_frequency < s.frequency_list.length ∧
    (FreqencyChoice.key_press s Key.down).new_frequency < s.frequency_list.length ∧
    (s.new_frequency = 0 →
      (FreqencyChoice.key_press s Key.up).new_frequency =
        s.frequency_list.length - 1) ∧
    (s.new_frequency = s.frequency_list.length - 1 →
      (FreqencyChoice.key_press s Key.down).new_frequency = 0) ∧
    (2 ≤ s.frequency_list.length →
      (FreqencyChoice.key_press s Key.up).new_frequency ≠ s.new_frequency ∧
      (FreqencyChoice.key_press s Key.down).new_frequency ≠ s.new_frequency) := by
  simp only [FreqencyChoice.key_press]
  split_ifs <;> refine ⟨?_, ?_, ?_, ?_, ?_⟩ <;> simp <;> omega

/-- Witness for `c10_freq_wraparound` on the two-element list `[3, 5]` with
pending index 0. -/
theorem c10_freq_wraparound_witness :
    0 < ([3, 5] : List Int).length ∧
    (0 : Nat) < ([3, 5] : List Int).length ∧
    ((FreqencyChoice.key_press ⟨[3, 5], 0, 0⟩ Key.up).new_frequency <
        ([3, 5] : List Int).length ∧
      (FreqencyChoice.key_press ⟨[3, 5], 0, 0⟩ Key.down).new_frequency <
        ([3, 5] : List Int).length ∧
      ((0 : Nat) = 0 →
        (FreqencyChoice.key_press ⟨[3, 5], 0, 0⟩ Key.up).new_frequency =
          ([3, 5] : List Int).length - 1) ∧
      ((0 : Nat) = ([3, 5] : List Int).length - 1 →
        (FreqencyChoice.key_press ⟨[3, 5], 0, 0⟩ Key.down).new_frequency = 0) ∧
      (2 ≤ ([3, 5] : List Int).length →
        (FreqencyChoice.key_press ⟨[3, 5], 0, 0⟩ Key.up).new_frequency ≠ 0 ∧
        (FreqencyChoice.key_press ⟨[3, 5], 0, 0⟩ Key.down).new_frequency ≠ 0)) :=
  ⟨by decide, by decide, c10_freq_wraparound ⟨[3, 5], 0, 0⟩ (by decide) (by decide)⟩

/-- C1, counterexample: the display cache was stored at mtime 5, the
on-disk display file now has mtime 7 and new content, yet `get_config_value`
returns the stale cached value and leaves the manager state untouched
(stored mtime still 5, no read performed) — the claimed
"reload happens whenever the modification times differ" is false for the
display config. -/
theorem c1_counterexample :
    statFile displayChangedWorld true = some 7 ∧
    displayCachedState.display_cache.st_mtime = 5 ∧
    ConfigManager.get_config_value "k" true displayChangedWorld displayCachedState =
      (some "old", displayCachedState) := by
  refine ⟨rfl, rfl, ?_⟩
  rfl

/-- C2, counterexample: during `update_config_values` the config path is
truncated in place before the merged table is written (lines 338-339 use
`open("w")`, not a temporary file plus rename), so the empty table is an
externally observable content of the path that is neither the before state
nor the after state. -/
theorem c2_counterexample :
    ([] : ConfigTable) ∈ ConfigManager.updateWriteTrace sampleTable sampleMergedTable ∧
    ([] : ConfigTable) ≠ sampleTable ∧
    ([] : ConfigTable) ≠ sampleMergedTable := by
  refine ⟨?_, ?_, ?_⟩ <;> decide

/-- C4, counterexample: the sensor config is cached (key `k` has value `v`)
and the file has disappeared, so `stat` raises `OSError`; the cache is
indeed retained unchanged, but the `get_config_value` caller receives
`None` — the failure marker — not the cached value `v`. -/
theorem c4_counterexample :
    sampleState.sensor_cache.config = some 0 ∧
    lookupValue (derefTable sampleState 0) "sensors_config" "k" = some "v" ∧
    ConfigManager.get_config_value "k" false missingWorld sampleState =
      (none, sampleState) := by
  refine ⟨rfl, by decide, ?_⟩
  rfl

/-- C1, amended: with a sensor cache entry present and the sensor file on
disk, `_get_config` returns the cached parser unchanged exactly when the
on-disk mtime equals the stored one, and re-reads the file (fresh parser,
stored mtime updated, read counter bumped) when they differ; for the
display config, however, a present cache entry is returned unchanged with
no mtime comparison at all. -/
theorem c1_amended_mtime_gate (w : World) (s : CMState) (r : Ref) (f : FileState)
    (hc : s.sensor_cache.config = some r) (hf : w.sensor_file = some f) :
    (f.st_mtime = s.sensor_cache.st_mtime →
      ConfigManager.getConfigInner false w s = (Except.ok r, s)) ∧
    (f.st_mtime ≠ s.sensor_cache.st_mtime →
      ConfigManager.getConfigInner false w s =
        (Except.ok s.heap.length,
         { heap := s.heap ++ [f.content],
           sensor_cache := { st_mtime := f.st_mtime, config := some s.heap.length },
           display_cache := s.display_cache,
           readCount := s.readCount + 1 })) ∧
    (∀ r2, s.display_cache.config = some r2 →
      ConfigManager.getConfigInner true w s = (Except.ok r2, s)) := by
  have hcc : (cacheOf s false).config = some r := by simpa [cacheOf] using hc
  have hst : statFile w false = some f.st_mtime := by simp [statFile, fileOf, hf]
  refine ⟨?_, ?_, ?_⟩
  · intro he
    exact ConfigManager.getConfigInner_cached hcc
      (by rw [hst]; simp [cacheOf, he])
  · intro hne
    simp [ConfigManager.getConfigInner, ConfigManager.getConfigLoad, hc, hne, hst,
      readFile, fileOf, hf, setCache, cacheOf]
  · intro r2 h2
    simp [ConfigManager.getConfigInner, h2]

/-- Witness for `c1_amended_mtime_gate`: both caches filled, sensor file on
disk at the cached mtime 3. -/
theorem c1_amended_mtime_gate_witness :
    bothCachedState.sensor_cache.config = some 0 ∧
    sampleWorld.sensor_file = some { content := sampleTable, st_mtime := 3 } ∧
    (((3 : Int) = bothCachedState.sensor_cache.st_mtime →
        ConfigManager.getConfigInner false sampleWorld bothCachedState =
          (Except.ok 0, bothCachedState)) ∧
      ((3 : Int) ≠ bothCachedState.sensor_cache.st_mtime →
        ConfigManager.getConfigInner false sampleWorld bothCachedState =
          (Except.ok bothCachedState.heap.length,
           { heap := bothCachedState.heap ++ [sampleTable],
             sensor_cache := { st_mtime := 3, config := some bothCachedState.heap.length },
             display_cache := bothCachedState.display_cache,
             readCount := bothCachedState.readCount + 1 })) ∧
      (∀ r2, bothCachedState.display_cache.config = some r2 →
        ConfigManager.getConfigInner true sampleWorld bothCachedState =
          (Except.ok r2, bothCachedState))) :=
  ⟨rfl, rfl,
   c1_amended_mtime_gate sampleWorld bothCachedState 0
     { content := sampleTable, st_mtime := 3 } rfl rfl⟩

/-- C2, amended: a successful `update_config_values` writes the merged
table directly over the config path (truncate in place, then write; no
temporary file, no rename), so while the final content is the full merged
table, the write trace of the path contains an intermediate content — the
truncated empty file — that is neither the before nor the after state
whenever both are non-empty.  (Only the advisory `FileLock` shields
cooperating readers of the sensor file; the display file is written with
no lock at all.) -/
theorem c2_amended_direct_write (kv : List (String × String)) (dc : Bool) (m : Int)
    (w : World) (s s1 : CMState) (r : Ref) (before : ConfigTable)
    (hg : ConfigManager.getConfigInner dc w s = (Except.ok r, s1))
    (hb : before ≠ [])
    (hm : applyUpdates (ensureSection (derefTable s1 r) (ConfigManager.sectionName dc))
        (ConfigManager.sectionName dc) kv ≠ []) :
    (ConfigManager.update_config_values kv dc m w s).1 =
      Except.ok (setFile w dc
        { content := applyUpdates
            (ensureSection (derefTable s1 r) (ConfigManager.sectionName dc))
            (ConfigManager.sectionName dc) kv,
          st_mtime := m }) ∧
    (∃ mid ∈ ConfigManager.updateWriteTrace before
        (applyUpdates (ensureSection (derefTable s1 r) (ConfigManager.sectionName dc))
          (ConfigManager.sectionName dc) kv),
      mid ≠ before ∧
      mid ≠ applyUpdates (ensureSection (derefTable s1 r) (ConfigManager.sectionName dc))
        (ConfigManager.sectionName dc) kv) := by
  constructor
  · simp only [ConfigManager.update_config_values, hg]
  · exact ⟨[], by simp [ConfigManager.updateWriteTrace], Ne.symm hb, Ne.symm hm⟩

/-- Witness for `c2_amended_direct_write`: updating key `k2` of the cached
sensor config. -/
theorem c2_amended_direct_write_witness :
    ConfigManager.getConfigInner false sampleWorld sampleState =
      (Except.ok 0, sampleState) ∧
    sampleTable ≠ ([] : ConfigTable) ∧
    applyUpdates (ensureSection (derefTable sampleState 0) (ConfigManager.sectionName false))
        (ConfigManager.sectionName false) [("k2", "w")] ≠ [] ∧
    ((ConfigManager.update_config_values [("k2", "w")] false 9 sampleWorld sampleState).1 =
      Except.ok (setFile sampleWorld false
        { content := applyUpdates
            (ensureSection (derefTable sampleState 0) (ConfigManager.sectionName false))
            (ConfigManager.sectionName false) [("k2", "w")],
          st_mtime := 9 }) ∧
      (∃ mid ∈ ConfigManager.updateWriteTrace sampleTable
          (applyUpdates (ensureSection (derefTable sampleState 0) (ConfigManager.sectionName false))
            (ConfigManager.sectionName false) [("k2", "w")]),
        mid ≠ sampleTable ∧
        mid ≠ applyUpdates (ensureSection (derefTable sampleState 0) (ConfigManager.sectionName false))
          (ConfigManager.sectionName false) [("k2", "w")])) :=
  ⟨by decide, by decide, by decide,
   c2_amended_direct_write [("k2", "w")] false 9 sampleWorld sampleState sampleState 0
     sampleTable (by decide) (by decide) (by decide)⟩

/-- C4, amended: on `OSError` while a sensor cache entry exists, the stale
cached table is retained unchanged and `update_config_values` fails
explicitly — but the `get_config_value` caller receives `None`, the
absence/failure marker, not the cached value. -/
theorem c4_amended_stale_retained (w : World) (s : CMState) (r : Ref) (k : String)
    (kv : List (String × String)) (m : Int)
    (hc : s.sensor_cache.config = some r) (hw : w.sensor_file = none) :
    ConfigManager.getConfigInner false w s = (Except.error (), s) ∧
    ConfigManager.get_config_value k false w s = (none, s) ∧
    ConfigManager.update_config_values kv false m w s = (Except.error (), s) := by
  have hcc : (cacheOf s false).config = some r := by simpa [cacheOf] using hc
  have hst : statFile w false = none := by simp [statFile, fileOf, hw]
  have h1 : ConfigManager.getConfigInner false w s = (Except.error (), s) := by
    simp [ConfigManager.getConfigInner, ConfigManager.getConfigLoad, hcc, hst]
  refine ⟨h1, ?_, ?_⟩
  · simp [ConfigManager.get_config_value, h1]
  · simp [ConfigManager.update_config_values, h1]

/-- Witness for `c4_amended_stale_retained`: cached sensor config, missing
file. -/
theorem c4_amended_stale_retained_witness :
    sampleState.sensor_cache.config = some 0 ∧
    missingWorld.sensor_file = none ∧
    (ConfigManager.getConfigInner false missingWorld sampleState =
        (Except.error (), sampleState) ∧
      ConfigManager.get_config_value "k" false missingWorld sampleState =
        (none, sampleState) ∧
      ConfigManager.update_config_values [("k2", "w")] false 9 missingWorld sampleState =
        (Except.error (), sampleState)) :=
  ⟨rfl, rfl,
   c4_amended_stale_retained missingWorld sampleState 0 "k" [("k2", "w")] 9 rfl rfl⟩

/-- C5: a successful `update_config_values` followed immediately by
`get_config_value` for any key just written (no external file modification
in between) yields exactly the written value, and the read leaves the
manager state — including the read counter — untouched: a pure cache hit,
no re-read, no re-parse. -/
theorem c5_update_then_get (kv : List (String × String)) (dc : Bool) (m : Int)
    (w w2 : World) (s s2 : CMState) (k v : String)
    (hwf : WF s) (hnd : (kv.map Prod.fst).Nodup) (hmem : (k, v) ∈ kv)
    (hupd : ConfigManager.update_config_values kv dc m w s = (Except.ok w2, s2)) :
    ConfigManager.get_config_value k dc w2 s2 = (some v, s2) := by
  rcases hg : ConfigManager.getConfigInner dc w s with ⟨e, s1⟩
  cases e with
  | error e0 =>
      simp only [ConfigManager.update_config_values, hg] at hupd
      simp at hupd
  | ok r =>
      obtain ⟨hcc, hlt⟩ := ConfigManager.getConfigInner_ok hwf hg
      simp only [ConfigManager.update_config_values, hg] at hupd
      simp only [Prod.mk.injEq, Except.ok.injEq] at hupd
      obtain ⟨rfl, rfl⟩ := hupd
      exact ConfigManager.get_after_update_aux dc w s1 r _ m k v hcc hlt
        (lookupValue_applyUpdates _ _ _ _ _
          (hasSection_ensureSection _ _) hnd hmem)

/-- Witness for `c5_update_then_get`: writing `k2 := w` to the cached
sensor config at mtime 9 and reading `k2` back. -/
theorem c5_update_then_get_witness :
    WF sampleState ∧
    (([("k2", "w")] : List (String × String)).map Prod.fst).Nodup ∧
    ("k2", "w") ∈ ([("k2", "w")] : List (String × String)) ∧
    ConfigManager.update_config_values [("k2", "w")] false 9 sampleWorld sampleState =
      (Except.ok sampleWorldAfter, sampleStateAfter) ∧
    ConfigManager.get_config_value "k2" false sampleWorldAfter sampleStateAfter =
      (some "w", sampleStateAfter) :=
  ⟨⟨by decide, by decide⟩, by decide, by decide, by decide,
   c5_update_then_get [("k2", "w")] false 9 sampleWorld sampleWorldAfter
     sampleState sampleStateAfter "k2" "w" ⟨by decide, by decide⟩ (by decide)
     (by decide) (by decide)⟩

/-- C9: `get_config` hands back a fresh copy of the cached parser (a new
heap address holding the same table), and however the caller overwrites
that copy, the cached table is unchanged and a subsequent
`get_config_value` still reads the original cached values. -/
theorem c9_get_config_deepcopy (dc : Bool) (w : World) (s : CMState) (rc : Ref)
    (k : String) (c2 : ConfigTable)
    (hwf : WF s) (hc : (cacheOf s dc).config = some rc)
    (hstat : statFile w dc = some (cacheOf s dc).st_mtime) :
    ConfigManager.get_config dc w s =
      (s.heap.length, { s with heap := s.heap ++ [derefTable s rc] }) ∧
    derefTable (mutateRef { s with heap := s.heap ++ [derefTable s rc] }
        s.heap.length c2) rc = derefTable s rc ∧
    ConfigManager.get_config_value k dc w
        (mutateRef { s with heap := s.heap ++ [derefTable s rc] } s.heap.length c2) =
      (lookupValue (derefTable s rc) (ConfigManager.sectionName dc) k,
       mutateRef { s with heap := s.heap ++ [derefTable s rc] } s.heap.length c2) := by
  have hgi := ConfigManager.getConfigInner_cached hc hstat
  have hlt : rc < s.heap.length := WF_cacheOf hwf hc
  have hcmut :
      cacheOf (mutateRef { s with heap := s.heap ++ [derefTable s rc] } s.heap.length c2) dc
        = cacheOf s dc := by
    rw [cacheOf_mutateRef, cacheOf_heapOnly]
  have hgi2 :
      ConfigManager.getConfigInner dc w
        (mutateRef { s with heap := s.heap ++ [derefTable s rc] } s.heap.length c2) =
      (Except.ok rc,
       mutateRef { s with heap := s.heap ++ [derefTable s rc] } s.heap.length c2) :=
    ConfigManager.getConfigInner_cached (by rw [hcmut]; exact hc)
      (by rw [hcmut]; exact hstat)
  have hder :
      derefTable (mutateRef { s with heap := s.heap ++ [derefTable s rc] }
        s.heap.length c2) rc = derefTable s rc := by
    show ((s.heap ++ [derefTable s rc]).set s.heap.length c2).getD rc [] = s.heap.getD rc []
    rw [getD_set_ne _ s.heap.length rc _ _ (Nat.ne_of_gt hlt), getD_append_lt _ _ _ _ hlt]
  refine ⟨?_, hder, ?_⟩
  · simp [ConfigManager.get_config, hgi]
  · simp only [ConfigManager.get_config_value, hgi2]
    rw [hder]

/-- Witness for `c9_get_config_deepcopy`: the cached sensor config with an
unmodified file; the copy is clobbered with the empty table. -/
theorem c9_get_config_deepcopy_witness :
    WF sampleState ∧
    (cacheOf sampleState false).config = some 0 ∧
    statFile sampleWorld false = some (cacheOf sampleState false).st_mtime ∧
    (ConfigManager.get_config false sampleWorld sampleState =
        (sampleState.heap.length,
         { sampleState with heap := sampleState.heap ++ [derefTable sampleState 0] }) ∧
      derefTable (mutateRef { sampleState with
          heap := sampleState.heap ++ [derefTable sampleState 0] }
          sampleState.heap.length []) 0 = derefTable sampleState 0 ∧
      ConfigManager.get_config_value "k" false sampleWorld
          (mutateRef { sampleState with
            heap := sampleState.heap ++ [derefTable sampleState 0] }
            sampleState.heap.length []) =
        (lookupValue (derefTable sampleState 0) (ConfigManager.sectionName false) "k",
         mutateRef { sampleState with
           heap := sampleState.heap ++ [derefTable sampleState 0] }
           sampleState.heap.length [])) :=
  ⟨⟨by decide, by decide⟩, by decide, by decide,
   c9_get_config_deepcopy false sampleWorld sampleState 0 "k" []
     ⟨by decide, by decide⟩ (by decide) (by decide)⟩

end MiniAir
